import Mathlib

/-!
Verification development for the `Thruster` system
(`src/systems/thruster/Thruster.cc`).

The state of `ThrusterPrivateData` is embedded as a Lean structure over the
real numbers (doubles are idealised as reals), and each member function is
embedded as a state-passing Lean function.  Host-side collaborators (the
entity-component manager, poses, transport) are represented by their values
only: battery charge readings become a list of `(parent, charge)` pairs, the
measured body velocities become step inputs, and the applied wrench,
published feedback and joint velocity command become step outputs.
-/

/-- Operation mode of the thruster (`ThrusterPrivateData::OperationMode`). -/
inductive OperationMode
  | ForceCmd
  | AngVelCmd
deriving DecidableEq

/-- An incoming double-valued message: either a NaN, an infinity, or a finite
real value.  `gz::math::fixnan` maps NaN and the infinities to `0`. -/
inductive DVal
  | nan
  | pinf
  | ninf
  | val (x : ℝ)

/-- `gz::math::fixnan`: NaN and infinite values are replaced by `0`. -/
def fixnan : DVal → ℝ
  | DVal.nan => 0
  | DVal.pinf => 0
  | DVal.ninf => 0
  | DVal.val x => x

/-- `gz::math::clamp(v, lo, hi) = std::max(std::min(v, hi), lo)`. -/
noncomputable def clamp (v lo hi : ℝ) : ℝ :=
  max (min v hi) lo

/-- `std::numeric_limits<double>::epsilon()` is `2 ^ (-52)`. -/
noncomputable def dblEpsilon : ℝ :=
  1 / 2 ^ 52

/-- The mutable data of `ThrusterPrivateData` that the control and conversion
logic reads and writes.  Entities are identified by natural numbers. -/
structure ThrusterState where
  opmode : OperationMode
  thrust : ℝ
  propellerAngVel : ℝ
  enabled : Bool
  modelEntity : ℕ
  velocityControl : Bool
  cmdMax : ℝ
  cmdMin : ℝ
  thrustCoefficient : ℝ
  thrustCoefficientSet : Bool
  wakeFraction : ℝ
  alpha1 : ℝ
  alpha2 : ℝ
  fluidDensity : ℝ
  propellerDiameter : ℝ
  linearVelocity : ℝ

/-- The member initialisers of `ThrusterPrivateData`. -/
noncomputable def initialState : ThrusterState where
  opmode := OperationMode.ForceCmd
  thrust := 0
  propellerAngVel := 0
  enabled := true
  modelEntity := 0
  velocityControl := false
  cmdMax := 1000
  cmdMin := -1000
  thrustCoefficient := 1
  thrustCoefficientSet := false
  wakeFraction := 0.2
  alpha1 := 1
  alpha2 := 0
  fluidDensity := 1000
  propellerDiameter := 0.02
  linearVelocity := 0

/-- `ThrusterPrivateData::UpdateThrustCoefficient`. -/
noncomputable def UpdateThrustCoefficient (s : ThrusterState) : ThrusterState :=
  { s with thrustCoefficient := s.alpha1 + s.alpha2 *
      (((1 - s.wakeFraction) * s.linearVelocity) /
        (s.propellerAngVel * s.propellerDiameter)) }

/-- `ThrusterPrivateData::ThrustToAngularVec`.  Returns the state after the
possible thrust-coefficient recomputation together with the computed
propeller angular velocity. -/
noncomputable def ThrustToAngularVec (s : ThrusterState) (t : ℝ) :
    ThrusterState × ℝ :=
  let s1 := if s.thrustCoefficientSet = false ∧ dblEpsilon < |s.propellerAngVel|
    then UpdateThrustCoefficient s else s
  let propAngularVelocity := Real.sqrt |t /
    (s1.fluidDensity * s1.thrustCoefficient * s1.propellerDiameter ^ 4)|
  (s1, (if 0 < t * s1.thrustCoefficient then 1 else -1) * propAngularVelocity)

/-- `ThrusterPrivateData::AngularVelToThrust`.  The method body performs no
writes, which the embedding records by returning the state unchanged. -/
noncomputable def AngularVelToThrust (s : ThrusterState) (v : ℝ) :
    ThrusterState × ℝ :=
  (s, s.thrustCoefficient * s.propellerDiameter ^ 4 * |v| * v * s.fluidDensity)

/-- `ThrusterPrivateData::OnCmdThrust`. -/
noncomputable def OnCmdThrust (s : ThrusterState) (msg : DVal) : ThrusterState :=
  let s1 := { s with thrust := clamp (fixnan msg) s.cmdMin s.cmdMax }
  let r := ThrustToAngularVec s1 s1.thrust
  { r.1 with propellerAngVel := r.2 }

/-- `ThrusterPrivateData::OnCmdAngVel`. -/
noncomputable def OnCmdAngVel (s : ThrusterState) (msg : DVal) : ThrusterState :=
  let s1 := { s with propellerAngVel := clamp (fixnan msg) s.cmdMin s.cmdMax }
  let r := AngularVelToThrust s1 s1.propellerAngVel
  { r.1 with thrust := r.2 }

/-- One `BatterySoC` component: the entity's parent and its charge level. -/
structure BatteryReading where
  parent : ℕ
  charge : ℝ

/-- `ThrusterPrivateData::HasSufficientBattery`: scan all battery state of
charge readings; any reading owned by the model with charge at most zero
makes the result false, otherwise the initial `true` survives. -/
noncomputable def HasSufficientBattery (me : ℕ)
    (readings : List BatteryReading) : Bool :=
  readings.foldl
    (fun result r => if r.parent = me ∧ r.charge ≤ 0 then false else result)
    true

/-- State of a PID controller: gains, integral bounds, command bounds and
offset (the `Init` arguments), plus the running error/integral state. -/
structure PIDState where
  pGain : ℝ
  iGain : ℝ
  dGain : ℝ
  iMax : ℝ
  iMin : ℝ
  cmdMax : ℝ
  cmdMin : ℝ
  cmdOffset : ℝ
  pErrLast : ℝ
  iErr : ℝ

/-- `math::PID::Init` followed by a fresh error/integral state. -/
def PIDInit (p i d iMax iMin cMax cMin offset : ℝ) : PIDState :=
  ⟨p, i, d, iMax, iMin, cMax, cMin, offset, 0, 0⟩

/-- Modelled from the spec: `gz::math::PID::Update`, whose implementation is
not under `src/` (it lives in the external math library).  The spec describes
a PID with gains `p`, `i`, `d`, integrator bounds and command bounds, driven
by the per-step error and the host-supplied `dt` ("dt is trusted as
authoritative for the PID integral/derivative terms").  A zero `dt` yields a
zero command with no state change; otherwise the command is the negated sum
of the proportional term, the clamped integral error and the derivative
term, clamped to the command bounds when those bounds are ordered. -/
noncomputable def PIDUpdate (st : PIDState) (err dt : ℝ) : PIDState × ℝ :=
  if dt = 0 then (st, 0)
  else
    let pTerm := st.pGain * err
    let iErrRaw := st.iErr + st.iGain * dt * err
    let iErrNew := if st.iMin ≤ st.iMax then clamp iErrRaw st.iMin st.iMax
      else iErrRaw
    let dErr := (err - st.pErrLast) / dt
    let dTerm := st.dGain * dErr
    let cmdRaw := -pTerm - iErrNew - dTerm
    let cmd := if st.cmdMin ≤ st.cmdMax then clamp cmdRaw st.cmdMin st.cmdMax
      else cmdRaw
    ({ st with pErrLast := err, iErr := iErrNew }, cmd)

/-- Host-supplied data consumed during one simulation step: the pause flag
and step duration from `UpdateInfo`, the measured link angular velocity
projected on the spin axis, the measured world linear speed of the link, and
the battery charge readings visible in the entity-component manager. -/
structure StepInput where
  paused : Bool
  dt : ℝ
  currentAngular : ℝ
  linearSpeed : ℝ
  batteries : List BatteryReading

/-- Effects a step reports back to the host: the applied wrench as the pair
of the force and torque magnitudes along the spin axis, the published
feedback value, and the joint velocity command written in velocity-control
mode.  `none` means the corresponding host call did not happen. -/
structure StepOutput where
  wrench : Option (ℝ × ℝ)
  published : Option ℝ
  jointVelCmd : Option ℝ

/-- The output of a step that returned early: no wrench, no publication, no
joint velocity command. -/
def StepOutput.empty : StepOutput :=
  ⟨none, none, none⟩

/-- `Thruster::PreUpdate`: early-out on pause or when disabled; otherwise
re-derive the propeller angular velocity from the stored thrust (under the
lock), run either the PID torque path or the direct velocity path, publish
the feedback quantity chosen by the operation mode, apply the wrench, and
record the measured linear speed. -/
noncomputable def PreUpdate (s : ThrusterState) (pid : PIDState)
    (inp : StepInput) : ThrusterState × PIDState × StepOutput :=
  if inp.paused then (s, pid, StepOutput.empty)
  else if s.enabled = false then (s, pid, StepOutput.empty)
  else
    let desiredThrust := s.thrust
    let r := ThrustToAngularVec s s.thrust
    let s1 := { r.1 with propellerAngVel := r.2 }
    let desiredPropellerAngVel := r.2
    if s.velocityControl = false then
      let angularError := inp.currentAngular - desiredPropellerAngVel
      let pr := if 0.1 < |angularError| then PIDUpdate pid angularError inp.dt
        else (pid, 0)
      let published := if s.opmode = OperationMode.ForceCmd
        then inp.currentAngular else desiredThrust
      ({ s1 with linearVelocity := inp.linearSpeed }, pr.1,
        ⟨some (desiredThrust, pr.2), some published, none⟩)
    else
      let published := if s.opmode = OperationMode.ForceCmd
        then desiredPropellerAngVel else desiredThrust
      ({ s1 with linearVelocity := inp.linearSpeed }, pid,
        ⟨some (desiredThrust, 0), some published,
          some desiredPropellerAngVel⟩)

/-- `Thruster::PostUpdate`: refresh the enabled flag from the battery state.
Runs every step, with no pause or enablement check. -/
noncomputable def PostUpdate (s : ThrusterState) (inp : StepInput) :
    ThrusterState :=
  { s with enabled := HasSufficientBattery s.modelEntity inp.batteries }

/-- One full simulation step: `PreUpdate` then `PostUpdate`. -/
noncomputable def Step (s : ThrusterState) (pid : PIDState)
    (inp : StepInput) : ThrusterState × PIDState × StepOutput :=
  let r := PreUpdate s pid inp
  (PostUpdate r.1 inp, r.2.1, r.2.2)

/-- The configuration elements `Thruster::Configure` reads from the SDF. -/
inductive SdfElem
  | jointName
  | thrustCoefficientElem
  | propellerDiameterElem
  | fluidDensityElem
  | useAngvelCmd
  | wakeFractionElem
  | alpha1Elem
  | alpha2Elem
  | maxThrustCmdElem
  | minThrustCmdElem
  | velocityControlElem
  | pGainElem
  | iGainElem
  | dGainElem
deriving DecidableEq

/-- A configuration: which elements are present, and the double/bool value
each present element carries. -/
structure SdfConfig where
  hasElement : SdfElem → Bool
  getDouble : SdfElem → ℝ
  getBool : SdfElem → Bool

/-- `sdf::Element::Get<double>` on an absent element returns the
default-constructed value `0`. -/
noncomputable def sdfGetDouble (c : SdfConfig) (e : SdfElem) : ℝ :=
  if c.hasElement e then c.getDouble e else 0

/-- The sequential parameter reads of `Thruster::Configure`: starting from
the member initialisers, read each present element in source order and
apply the command-bound revert rule. -/
noncomputable def ConfigureState (c : SdfConfig) : ThrusterState :=
  let s1 := if c.hasElement SdfElem.thrustCoefficientElem then
        { initialState with
            thrustCoefficient := c.getDouble SdfElem.thrustCoefficientElem,
            thrustCoefficientSet := true }
      else initialState
    let s2 := if c.hasElement SdfElem.propellerDiameterElem then
        { s1 with propellerDiameter := c.getDouble SdfElem.propellerDiameterElem }
      else s1
    let s3 := if c.hasElement SdfElem.fluidDensityElem then
        { s2 with fluidDensity := c.getDouble SdfElem.fluidDensityElem }
      else s2
    let s4 := if c.hasElement SdfElem.useAngvelCmd then
        { s3 with opmode := if c.getBool SdfElem.useAngvelCmd
            then OperationMode.AngVelCmd else OperationMode.ForceCmd }
      else s3
    let s5 := if c.hasElement SdfElem.wakeFractionElem then
        { s4 with wakeFraction := c.getDouble SdfElem.wakeFractionElem }
      else s4
    let s6 := if c.hasElement SdfElem.alpha1Elem then
        { s5 with alpha1 := c.getDouble SdfElem.alpha1Elem }
      else s5
    let s7 := if c.hasElement SdfElem.alpha2Elem then
        { s6 with alpha2 := c.getDouble SdfElem.alpha2Elem }
      else s6
    let minThrustCmd := if c.hasElement SdfElem.minThrustCmdElem
      then c.getDouble SdfElem.minThrustCmdElem else s7.cmdMin
    let maxThrustCmd := if c.hasElement SdfElem.maxThrustCmdElem
      then c.getDouble SdfElem.maxThrustCmdElem else s7.cmdMax
    let s8 := if maxThrustCmd < minThrustCmd then s7
      else { s7 with cmdMax := maxThrustCmd, cmdMin := minThrustCmd }
    if c.hasElement SdfElem.velocityControlElem then
      { s8 with velocityControl := c.getBool SdfElem.velocityControlElem }
    else s8

/-- `Thruster::Configure`: a missing `joint_name` aborts configuration,
leaving the defaults and no controller; otherwise the parameters are read
via `ConfigureState`, and in PID mode (velocity control off) the PID
controller is built via `Init`, converting the command bounds through
`ThrustToAngularVec` (whose state-threading is preserved) and reading the
gains — `i_gain` and `d_gain` under the source's inverted presence check.
Entity lookup and transport wiring are host collaborators and are not part
of the embedded state. -/
noncomputable def Configure (c : SdfConfig) : ThrusterState × Option PIDState :=
  if c.hasElement SdfElem.jointName = false then (initialState, none)
  else
    let s9 := ConfigureState c
    if s9.velocityControl = false then
      let rMax := ThrustToAngularVec s9 s9.cmdMax
      let rMin := ThrustToAngularVec rMax.1 s9.cmdMin
      let p := if c.hasElement SdfElem.pGainElem
        then c.getDouble SdfElem.pGainElem else 0.1
      let i := if c.hasElement SdfElem.iGainElem = false
        then sdfGetDouble c SdfElem.iGainElem else 0
      let d := if c.hasElement SdfElem.dGainElem = false
        then sdfGetDouble c SdfElem.dGainElem else 0
      (rMin.1, some (PIDInit p i d 1 (-1) rMax.2 rMin.2 0))
    else (s9, none)

/-- Concrete PID state used to exercise the control step: the default gains
of `Thruster::Configure` with simple command bounds. -/
noncomputable def wPid : PIDState :=
  PIDInit 0.1 0 0 1 (-1) 1000 (-1000) 0

/-- A step input whose only owned battery reading is fully depleted. -/
noncomputable def wStepBatteryLow : StepInput :=
  ⟨false, 1, 0, 0, [⟨0, 0⟩]⟩

/-- A step input whose only owned battery reading has positive charge. -/
noncomputable def wStepBatteryOk : StepInput :=
  ⟨false, 1, 0, 0, [⟨0, 1⟩]⟩

/-- A step input with no battery readings at all. -/
noncomputable def wStepNoBattery : StepInput :=
  ⟨false, 1, 0, 0, []⟩

/-- A step input measuring a link angular velocity of `1` on the spin axis,
placing the control error well outside the dead-band. -/
noncomputable def wStepErr : StepInput :=
  ⟨false, 1, 1, 0, []⟩

/-- A configuration carrying a joint name together with explicit `i_gain`
and `d_gain` elements (values 5 and 7) and nothing else. -/
noncomputable def wCfg : SdfConfig where
  hasElement := fun e => match e with
    | SdfElem.jointName => true
    | SdfElem.iGainElem => true
    | SdfElem.dGainElem => true
    | _ => false
  getDouble := fun e => match e with
    | SdfElem.iGainElem => 5
    | SdfElem.dGainElem => 7
    | _ => 0
  getBool := fun _ => false

theorem t2av_fst (s : ThrusterState) (t : ℝ) :
    (ThrustToAngularVec s t).1 =
      if s.thrustCoefficientSet = false ∧ dblEpsilon < |s.propellerAngVel|
      then UpdateThrustCoefficient s else s :=
  rfl

theorem t2av_snd (s : ThrusterState) (t : ℝ) :
    (ThrustToAngularVec s t).2 =
      (if 0 < t * (ThrustToAngularVec s t).1.thrustCoefficient then 1 else -1) *
        Real.sqrt |t / ((ThrustToAngularVec s t).1.fluidDensity *
          (ThrustToAngularVec s t).1.thrustCoefficient *
          (ThrustToAngularVec s t).1.propellerDiameter ^ 4)| :=
  rfl

@[simp]
theorem t2av_thrust (s : ThrusterState) (t : ℝ) :
    (ThrustToAngularVec s t).1.thrust = s.thrust := by
  rw [t2av_fst]
  split <;> rfl

@[simp]
theorem t2av_propellerAngVel (s : ThrusterState) (t : ℝ) :
    (ThrustToAngularVec s t).1.propellerAngVel = s.propellerAngVel := by
  rw [t2av_fst]
  split <;> rfl

@[simp]
theorem t2av_enabled (s : ThrusterState) (t : ℝ) :
    (ThrustToAngularVec s t).1.enabled = s.enabled := by
  rw [t2av_fst]
  split <;> rfl

@[simp]
theorem t2av_modelEntity (s : ThrusterState) (t : ℝ) :
    (ThrustToAngularVec s t).1.modelEntity = s.modelEntity := by
  rw [t2av_fst]
  split <;> rfl

@[simp]
theorem t2av_opmode (s : ThrusterState) (t : ℝ) :
    (ThrustToAngularVec s t).1.opmode = s.opmode := by
  rw [t2av_fst]
  split <;> rfl

@[simp]
theorem t2av_velocityControl (s : ThrusterState) (t : ℝ) :
    (ThrustToAngularVec s t).1.velocityControl = s.velocityControl := by
  rw [t2av_fst]
  split <;> rfl

@[simp]
theorem t2av_cmdMax (s : ThrusterState) (t : ℝ) :
    (ThrustToAngularVec s t).1.cmdMax = s.cmdMax := by
  rw [t2av_fst]
  split <;> rfl

@[simp]
theorem t2av_cmdMin (s : ThrusterState) (t : ℝ) :
    (ThrustToAngularVec s t).1.cmdMin = s.cmdMin := by
  rw [t2av_fst]
  split <;> rfl

@[simp]
theorem t2av_thrustCoefficientSet (s : ThrusterState) (t : ℝ) :
    (ThrustToAngularVec s t).1.thrustCoefficientSet = s.thrustCoefficientSet := by
  rw [t2av_fst]
  split <;> rfl

@[simp]
theorem t2av_wakeFraction (s : ThrusterState) (t : ℝ) :
    (ThrustToAngularVec s t).1.wakeFraction = s.wakeFraction := by
  rw [t2av_fst]
  split <;> rfl

@[simp]
theorem t2av_alpha1 (s : ThrusterState) (t : ℝ) :
    (ThrustToAngularVec s t).1.alpha1 = s.alpha1 := by
  rw [t2av_fst]
  split <;> rfl

@[simp]
theorem t2av_alpha2 (s : ThrusterState) (t : ℝ) :
    (ThrustToAngularVec s t).1.alpha2 = s.alpha2 := by
  rw [t2av_fst]
  split <;> rfl

@[simp]
theorem t2av_fluidDensity (s : ThrusterState) (t : ℝ) :
    (ThrustToAngularVec s t).1.fluidDensity = s.fluidDensity := by
  rw [t2av_fst]
  split <;> rfl

@[simp]
theorem t2av_propellerDiameter (s : ThrusterState) (t : ℝ) :
    (ThrustToAngularVec s t).1.propellerDiameter = s.propellerDiameter := by
  rw [t2av_fst]
  split <;> rfl

@[simp]
theorem t2av_linearVelocity (s : ThrusterState) (t : ℝ) :
    (ThrustToAngularVec s t).1.linearVelocity = s.linearVelocity := by
  rw [t2av_fst]
  split <;> rfl

theorem clamp_of_hi_lt {v lo hi : ℝ} (hlohi : lo ≤ hi) (h : hi < v) :
    clamp v lo hi = hi := by
  unfold clamp
  rw [min_eq_right h.le, max_eq_left hlohi]

theorem clamp_of_lt_lo {v lo hi : ℝ} (hlohi : lo ≤ hi) (h : v < lo) :
    clamp v lo hi = lo := by
  unfold clamp
  rw [min_eq_left (h.le.trans hlohi), max_eq_right h.le]

/-- Claim C3: the thrust-coefficient recomputation is a side effect of the
thrust-to-angular-velocity direction only; it fires exactly when the
coefficient was not fixed by configuration and the propeller angular
velocity magnitude exceeds machine epsilon, it touches no field other than
`thrustCoefficient`, and `AngularVelToThrust` modifies no state at all. -/
theorem thruster_coefficient_recompute_asymmetry (s : ThrusterState) (t v : ℝ) :
    (AngularVelToThrust s v).1 = s
    ∧ ((s.thrustCoefficientSet = true ∨ |s.propellerAngVel| ≤ dblEpsilon) →
        (ThrustToAngularVec s t).1 = s)
    ∧ ((s.thrustCoefficientSet = false ∧ dblEpsilon < |s.propellerAngVel|) →
        (ThrustToAngularVec s t).1 = UpdateThrustCoefficient s)
    ∧ (ThrustToAngularVec s t).1.thrust = s.thrust
    ∧ (ThrustToAngularVec s t).1.propellerAngVel = s.propellerAngVel
    ∧ (ThrustToAngularVec s t).1.enabled = s.enabled
    ∧ (ThrustToAngularVec s t).1.opmode = s.opmode
    ∧ (ThrustToAngularVec s t).1.velocityControl = s.velocityControl
    ∧ (ThrustToAngularVec s t).1.cmdMax = s.cmdMax
    ∧ (ThrustToAngularVec s t).1.cmdMin = s.cmdMin
    ∧ (ThrustToAngularVec s t).1.thrustCoefficientSet = s.thrustCoefficientSet
    ∧ (ThrustToAngularVec s t).1.wakeFraction = s.wakeFraction
    ∧ (ThrustToAngularVec s t).1.alpha1 = s.alpha1
    ∧ (ThrustToAngularVec s t).1.alpha2 = s.alpha2
    ∧ (ThrustToAngularVec s t).1.fluidDensity = s.fluidDensity
    ∧ (ThrustToAngularVec s t).1.propellerDiameter = s.propellerDiameter
    ∧ (ThrustToAngularVec s t).1.linearVelocity = s.linearVelocity
    ∧ (ThrustToAngularVec s t).1.modelEntity = s.modelEntity := by
  repeat' apply And.intro
  · rfl
  · intro h
    rw [t2av_fst, if_neg]
    rintro ⟨h1, h2⟩
    rcases h with h | h
    · rw [h] at h1
      simp at h1
    · exact absurd h2 (not_lt.mpr h)
  · intro h
    rw [t2av_fst, if_pos h]
  all_goals simp

/-- Claim C3 witness: with the default state the recomputation does not
fire; after setting a unit propeller angular velocity it does, and the
resulting state is exactly the coefficient update of the input state. -/
theorem thruster_coefficient_recompute_asymmetry_witness :
    (ThrustToAngularVec initialState 7).1 = initialState
    ∧ (ThrustToAngularVec { initialState with propellerAngVel := 1 } 7).1 =
        UpdateThrustCoefficient { initialState with propellerAngVel := 1 } := by
  constructor
  · exact (thruster_coefficient_recompute_asymmetry initialState 7 0).2.1
      (Or.inr (by norm_num [initialState, dblEpsilon]))
  · exact (thruster_coefficient_recompute_asymmetry
      { initialState with propellerAngVel := 1 } 7 0).2.2.1
      ⟨rfl, by norm_num [dblEpsilon]⟩

/-- Claim C4: in both operating modes the stored command is
`clamp (fixnan value) cmdMin cmdMax`: NaN becomes `0` before clamping,
values above `cmdMax` store exactly `cmdMax`, values below `cmdMin` store
exactly `cmdMin`, and the complementary quantity is derived only from the
sanitized-and-clamped value. -/
theorem thruster_command_sanitize_clamp (s : ThrusterState) (msg : DVal)
    (hlohi : s.cmdMin ≤ s.cmdMax) :
    (OnCmdThrust s msg).thrust = clamp (fixnan msg) s.cmdMin s.cmdMax
    ∧ (OnCmdThrust s DVal.nan).thrust = clamp 0 s.cmdMin s.cmdMax
    ∧ (∀ v : ℝ, s.cmdMax < v → (OnCmdThrust s (DVal.val v)).thrust = s.cmdMax)
    ∧ (∀ v : ℝ, v < s.cmdMin → (OnCmdThrust s (DVal.val v)).thrust = s.cmdMin)
    ∧ (OnCmdThrust s msg).propellerAngVel =
        (ThrustToAngularVec
          { s with thrust := clamp (fixnan msg) s.cmdMin s.cmdMax }
          (clamp (fixnan msg) s.cmdMin s.cmdMax)).2
    ∧ (OnCmdAngVel s msg).propellerAngVel = clamp (fixnan msg) s.cmdMin s.cmdMax
    ∧ (OnCmdAngVel s DVal.nan).propellerAngVel = clamp 0 s.cmdMin s.cmdMax
    ∧ (∀ v : ℝ, s.cmdMax < v →
        (OnCmdAngVel s (DVal.val v)).propellerAngVel = s.cmdMax)
    ∧ (∀ v : ℝ, v < s.cmdMin →
        (OnCmdAngVel s (DVal.val v)).propellerAngVel = s.cmdMin)
    ∧ (OnCmdAngVel s msg).thrust =
        (AngularVelToThrust
          { s with propellerAngVel := clamp (fixnan msg) s.cmdMin s.cmdMax }
          (clamp (fixnan msg) s.cmdMin s.cmdMax)).2 := by
  refine ⟨by simp [OnCmdThrust], by simp [OnCmdThrust, fixnan], ?_, ?_, rfl,
    rfl, rfl, ?_, ?_, rfl⟩
  · intro v hv
    simp [OnCmdThrust, fixnan, clamp_of_hi_lt hlohi hv]
  · intro v hv
    simp [OnCmdThrust, fixnan, clamp_of_lt_lo hlohi hv]
  · intro v hv
    simp [OnCmdAngVel, AngularVelToThrust, fixnan, clamp_of_hi_lt hlohi hv]
  · intro v hv
    simp [OnCmdAngVel, AngularVelToThrust, fixnan, clamp_of_lt_lo hlohi hv]

/-- Claim C4 witness: with the default bounds `[-1000, 1000]`, a command of
`2000` stores `1000`, a NaN command stores `0`, and a command of `-2000`
stores `-1000`. -/
theorem thruster_command_sanitize_clamp_witness :
    (OnCmdThrust initialState (DVal.val 2000)).thrust = 1000
    ∧ (OnCmdThrust initialState DVal.nan).thrust = 0
    ∧ (OnCmdThrust initialState (DVal.val (-2000))).thrust = -1000 := by
  have h := thruster_command_sanitize_clamp initialState DVal.nan
    (by norm_num [initialState])
  refine ⟨?_, ?_, ?_⟩
  · have := h.2.2.1 2000 (by norm_num [initialState])
    simpa [initialState] using this
  · have := h.2.1
    rw [this]
    norm_num [clamp, initialState]
  · have := h.2.2.2.1 (-2000) (by norm_num [initialState])
    simpa [initialState] using this

theorem hasSufficientBattery_foldl_false (me : ℕ) (l : List BatteryReading) :
    l.foldl
      (fun result r => if r.parent = me ∧ r.charge ≤ 0 then false else result)
      false = false := by
  induction l with
  | nil => rfl
  | cons a tl ih =>
    have ha : (if a.parent = me ∧ a.charge ≤ 0 then false else false) = false := by
      split <;> rfl
    simpa [ha] using ih

theorem hasSufficientBattery_foldl_of_mem (me : ℕ) (l : List BatteryReading)
    (hex : ∃ r ∈ l, r.parent = me ∧ r.charge ≤ 0) : ∀ acc : Bool,
    l.foldl
      (fun result r => if r.parent = me ∧ r.charge ≤ 0 then false else result)
      acc = false := by
  induction l with
  | nil => exact absurd hex (by simp)
  | cons a tl ih =>
    intro acc
    rcases hex with ⟨r, hr, hprop⟩
    rcases List.mem_cons.mp hr with heq | htl
    · subst heq
      simp only [List.foldl_cons, if_pos hprop]
      exact hasSufficientBattery_foldl_false me tl
    · simp only [List.foldl_cons]
      exact ih ⟨r, htl, hprop⟩ _

/-- Claim C6: `HasSufficientBattery` is fail-open: it returns `true` when no
reading is owned by the model entity, and `false` as soon as one owned
reading has charge at most zero. -/
theorem thruster_battery_fail_open (me : ℕ) (l : List BatteryReading) :
    ((∀ r ∈ l, r.parent ≠ me) → HasSufficientBattery me l = true)
    ∧ ((∃ r ∈ l, r.parent = me ∧ r.charge ≤ 0) →
        HasSufficientBattery me l = false) := by
  constructor
  · intro hall
    unfold HasSufficientBattery
    induction l with
    | nil => rfl
    | cons a tl ih =>
      have ha : a.parent ≠ me := hall a (List.mem_cons_self a tl)
      have hneg : ¬(a.parent = me ∧ a.charge ≤ 0) := fun hc => ha hc.1
      simp only [List.foldl_cons, if_neg hneg]
      exact ih (fun r hr => hall r (List.mem_cons_of_mem a hr))
  · intro hex
    exact hasSufficientBattery_foldl_of_mem me l hex true

/-- Claim C6 witness: with no readings the gate reports enabled; with one
owned, fully depleted reading it reports disabled. -/
theorem thruster_battery_fail_open_witness :
    HasSufficientBattery 1 [] = true
    ∧ HasSufficientBattery 1 [⟨1, 0⟩] = false := by
  constructor
  · exact (thruster_battery_fail_open 1 []).1 (by simp)
  · exact (thruster_battery_fail_open 1 [⟨1, 0⟩]).2
      ⟨⟨1, 0⟩, by simp, rfl, by norm_num⟩

theorem sign_formula_eq (t C ρ d : ℝ) (hρ : 0 < ρ) (hd : 0 < d) :
    Real.sign ((if 0 < t * C then 1 else -1) * Real.sqrt |t / (ρ * C * d ^ 4)|)
      = Real.sign (t * C) := by
  by_cases h : 0 < t * C
  · rw [if_pos h, one_mul]
    have ht : t ≠ 0 := fun h0 => by simp [h0] at h
    have hC : C ≠ 0 := fun h0 => by simp [h0] at h
    have hK : ρ * C * d ^ 4 ≠ 0 :=
      mul_ne_zero (mul_ne_zero hρ.ne' hC) (by positivity)
    have habs : 0 < |t / (ρ * C * d ^ 4)| :=
      abs_pos.mpr (div_ne_zero ht hK)
    rw [Real.sign_of_pos (Real.sqrt_pos.mpr habs), Real.sign_of_pos h]
  · rw [if_neg h]
    rcases lt_or_eq_of_le (not_lt.mp h) with hlt | heq
    · have ht : t ≠ 0 := fun h0 => by simp [h0] at hlt
      have hC : C ≠ 0 := fun h0 => by simp [h0] at hlt
      have hK : ρ * C * d ^ 4 ≠ 0 :=
        mul_ne_zero (mul_ne_zero hρ.ne' hC) (by positivity)
      have habs : 0 < |t / (ρ * C * d ^ 4)| :=
        abs_pos.mpr (div_ne_zero ht hK)
      have hneg : (-1 : ℝ) * Real.sqrt |t / (ρ * C * d ^ 4)| < 0 := by
        have := Real.sqrt_pos.mpr habs
        nlinarith
      rw [Real.sign_of_neg hneg, Real.sign_of_neg hlt]
    · rcases mul_eq_zero.mp heq with ht | hC
      · simp [ht, Real.sign_zero]
      · simp [hC, Real.sign_zero]

/-- Claim C2: the sign of the angular velocity computed by
`ThrustToAngularVec` equals the sign of the thrust times the (effective)
thrust coefficient, and zero thrust yields zero angular velocity. -/
theorem thruster_angvel_sign (s : ThrusterState) (t : ℝ)
    (hρ : 0 < s.fluidDensity) (hd : 0 < s.propellerDiameter) :
    Real.sign ((ThrustToAngularVec s t).2) =
      Real.sign (t * (ThrustToAngularVec s t).1.thrustCoefficient)
    ∧ (ThrustToAngularVec s 0).2 = 0 := by
  constructor
  · rw [t2av_snd s t, t2av_fluidDensity, t2av_propellerDiameter]
    exact sign_formula_eq t (ThrustToAngularVec s t).1.thrustCoefficient
      s.fluidDensity s.propellerDiameter hρ hd
  · rw [t2av_snd s 0]
    simp

/-- Claim C2 witness: from the default state, a `4` N thrust has computed
angular velocity with sign equal to `sign (4 * coefficient)`, and zero
thrust maps to zero angular velocity. -/
theorem thruster_angvel_sign_witness :
    Real.sign ((ThrustToAngularVec initialState 4).2) =
      Real.sign (4 * (ThrustToAngularVec initialState 4).1.thrustCoefficient)
    ∧ (ThrustToAngularVec initialState 0).2 = 0 := by
  have h := thruster_angvel_sign initialState 4
    (by norm_num [initialState]) (by norm_num [initialState])
  exact ⟨h.1, h.2⟩

theorem round_trip_formula (t C ρ d : ℝ) (hρ : 0 < ρ) (hd : 0 < d)
    (hC : C ≠ 0) :
    C * d ^ 4 * abs ((if 0 < t * C then 1 else -1) *
        Real.sqrt |t / (ρ * C * d ^ 4)|) *
      ((if 0 < t * C then 1 else -1) * Real.sqrt |t / (ρ * C * d ^ 4)|) * ρ
      = t := by
  have hd4 : (0 : ℝ) < d ^ 4 := by positivity
  have hK : ρ * C * d ^ 4 ≠ 0 := mul_ne_zero (mul_ne_zero hρ.ne' hC) hd4.ne'
  have hAA : Real.sqrt |t / (ρ * C * d ^ 4)| *
      Real.sqrt |t / (ρ * C * d ^ 4)| = |t / (ρ * C * d ^ 4)| :=
    Real.mul_self_sqrt (abs_nonneg _)
  have hrw : t / (ρ * C * d ^ 4) = (t * C) / (ρ * C ^ 2 * d ^ 4) := by
    rw [div_eq_div_iff hK (by positivity)]
    ring
  by_cases h : 0 < t * C
  · have hq : 0 ≤ t / (ρ * C * d ^ 4) := by
      rw [hrw]
      exact le_of_lt (div_pos h (by positivity))
    rw [if_pos h, one_mul, abs_of_nonneg (Real.sqrt_nonneg _)]
    have hre : C * d ^ 4 * Real.sqrt |t / (ρ * C * d ^ 4)| *
        Real.sqrt |t / (ρ * C * d ^ 4)| * ρ =
        (Real.sqrt |t / (ρ * C * d ^ 4)| * Real.sqrt |t / (ρ * C * d ^ 4)|) *
          (C * d ^ 4 * ρ) := by
      ring
    rw [hre, hAA, abs_of_nonneg hq]
    have hcomm : C * d ^ 4 * ρ = ρ * C * d ^ 4 := by ring
    rw [hcomm, div_mul_cancel₀ t hK]
  · have hq : t / (ρ * C * d ^ 4) ≤ 0 := by
      rw [hrw]
      exact div_nonpos_of_nonpos_of_nonneg (not_lt.mp h) (by positivity)
    rw [if_neg h, neg_one_mul, abs_neg, abs_of_nonneg (Real.sqrt_nonneg _)]
    have hre : C * d ^ 4 * Real.sqrt |t / (ρ * C * d ^ 4)| *
        -Real.sqrt |t / (ρ * C * d ^ 4)| * ρ =
        -((Real.sqrt |t / (ρ * C * d ^ 4)| * Real.sqrt |t / (ρ * C * d ^ 4)|) *
          (C * d ^ 4 * ρ)) := by
      ring
    rw [hre, hAA, abs_of_nonpos hq]
    have hcomm : C * d ^ 4 * ρ = ρ * C * d ^ 4 := by ring
    rw [neg_mul, neg_neg, hcomm, div_mul_cancel₀ t hK]

/-- Claim C1: with positive fluid density and propeller diameter, a nonzero
thrust coefficient, and the coefficient held fixed across the round trip
(set by configuration, or propeller angular velocity magnitude at or below
machine epsilon, so no recomputation fires), converting a thrust to an
angular velocity and back recovers the thrust exactly. -/
theorem thruster_round_trip (s : ThrusterState) (t : ℝ)
    (hρ : 0 < s.fluidDensity) (hd : 0 < s.propellerDiameter)
    (hC : s.thrustCoefficient ≠ 0)
    (hfix : s.thrustCoefficientSet = true ∨ |s.propellerAngVel| ≤ dblEpsilon) :
    (AngularVelToThrust (ThrustToAngularVec s t).1
      (ThrustToAngularVec s t).2).2 = t := by
  have hno : ¬(s.thrustCoefficientSet = false ∧
      dblEpsilon < |s.propellerAngVel|) := by
    rintro ⟨h1, h2⟩
    rcases hfix with h | h
    · rw [h] at h1
      simp at h1
    · exact absurd h2 (not_lt.mpr h)
  have hst : (ThrustToAngularVec s t).1 = s := by
    rw [t2av_fst, if_neg hno]
  have hval : (ThrustToAngularVec s t).2 =
      (if 0 < t * s.thrustCoefficient then 1 else -1) *
        Real.sqrt |t / (s.fluidDensity * s.thrustCoefficient *
          s.propellerDiameter ^ 4)| := by
    rw [t2av_snd, hst]
  rw [hst, hval]
  unfold AngularVelToThrust
  exact round_trip_formula t s.thrustCoefficient s.fluidDensity
    s.propellerDiameter hρ hd hC

/-- Claim C1 witness: from the default state (coefficient 1, density 1000,
diameter 0.02, propeller at rest), a 4 N thrust survives the round trip. -/
theorem thruster_round_trip_witness :
    0 < initialState.fluidDensity
    ∧ (AngularVelToThrust (ThrustToAngularVec initialState 4).1
        (ThrustToAngularVec initialState 4).2).2 = 4 := by
  constructor
  · norm_num [initialState]
  · exact thruster_round_trip initialState 4
      (by norm_num [initialState]) (by norm_num [initialState])
      (by norm_num [initialState])
      (Or.inr (by norm_num [initialState, dblEpsilon]))

theorem c8_clamp_eval :
    clamp (fixnan (DVal.val 100)) initialState.cmdMin initialState.cmdMax
      = 100 := by
  unfold clamp fixnan initialState
  norm_num

theorem c8_scenario_eval :
    (OnCmdThrust initialState (DVal.val 100)).propellerAngVel =
      Real.sqrt 625000 := by
  have h1 : (OnCmdThrust initialState (DVal.val 100)).propellerAngVel =
      (ThrustToAngularVec { initialState with thrust := clamp (fixnan (DVal.val 100)) initialState.cmdMin initialState.cmdMax } (clamp (fixnan (DVal.val 100)) initialState.cmdMin initialState.cmdMax)).2 := rfl
  rw [h1, c8_clamp_eval]
  have hst : (ThrustToAngularVec { initialState with thrust := (100 : ℝ) }
      100).1 = { initialState with thrust := (100 : ℝ) } := by
    rw [t2av_fst, if_neg]
    rintro ⟨hA, hB⟩
    norm_num [initialState, dblEpsilon] at hB
  rw [t2av_snd, hst]
  show (if (0 : ℝ) < 100 * 1 then (1 : ℝ) else -1) *
      Real.sqrt |(100 : ℝ) / (1000 * 1 * (0.02 : ℝ) ^ 4)| = Real.sqrt 625000
  rw [if_pos (by norm_num : (0 : ℝ) < 100 * 1), one_mul]
  have harg : |(100 : ℝ) / (1000 * 1 * (0.02 : ℝ) ^ 4)| = 625000 := by
    rw [abs_of_pos (by norm_num : (0 : ℝ) < 100 / (1000 * 1 * (0.02 : ℝ) ^ 4))]
    norm_num
  rw [harg]

theorem c8_sqrt_low : (790 : ℝ) < Real.sqrt 625000 := by
  have h : (790 : ℝ) ^ 2 < 625000 := by norm_num
  exact Real.lt_sqrt_of_sq_lt h

/-- Claim C8 counterexample: with the scenario's configuration (the source
defaults with the thrust coefficient unset), commanding 100 N yields a
propeller angular velocity farther than 1 rad/s away from the claimed
value 55.9 rad/s (it is in fact above 790 rad/s), so the claimed
approximation is false. -/
theorem thruster_scenario_not_55_9 :
    ¬ |(OnCmdThrust initialState (DVal.val 100)).propellerAngVel - 55.9| ≤ 1 := by
  intro habs
  have h1 := c8_scenario_eval
  have h2 := c8_sqrt_low
  rw [h1] at habs
  have h3 : Real.sqrt 625000 - 55.9 ≤ 1 :=
    le_trans (le_abs_self _) habs
  nlinarith

/-- Claim C8 amended: with `thrust_coefficient` unset, `alpha_1 = 1`,
`alpha_2 = 0`, `fluid_density = 1000`, `propeller_diameter = 0.02` (the
source defaults), commanding thrust = 100 N yields a derived propeller
angular velocity equal to `sqrt (100 / (1000 * 1 * 0.02 ^ 4))`, that is
`sqrt 625000`, approximately 790.6 rad/s (strictly between 790 and 791),
with positive sign. -/
theorem thruster_scenario_100N :
    (OnCmdThrust initialState (DVal.val 100)).propellerAngVel =
      Real.sqrt (100 / (1000 * 1 * (0.02 : ℝ) ^ 4))
    ∧ 790 < (OnCmdThrust initialState (DVal.val 100)).propellerAngVel
    ∧ (OnCmdThrust initialState (DVal.val 100)).propellerAngVel < 791
    ∧ 0 < (OnCmdThrust initialState (DVal.val 100)).propellerAngVel := by
  have h1 := c8_scenario_eval
  have harg : (100 : ℝ) / (1000 * 1 * (0.02 : ℝ) ^ 4) = 625000 := by
    norm_num
  refine ⟨by rw [h1, harg], by rw [h1]; exact c8_sqrt_low, ?_, ?_⟩
  · rw [h1]
    have h : (625000 : ℝ) < 791 ^ 2 := by norm_num
    exact (Real.sqrt_lt' (by norm_num)).mpr h
  · rw [h1]
    exact Real.sqrt_pos.mpr (by norm_num)

theorem clamp_ne_zero {x lo hi : ℝ} (hlo : lo < 0) (hhi : 0 < hi)
    (hx : x ≠ 0) : clamp x lo hi ≠ 0 := by
  rcases hx.lt_or_lt with h | h
  · have h1 : min x hi = x := min_eq_left (le_of_lt (lt_trans h hhi))
    unfold clamp
    rw [h1]
    exact ne_of_lt (max_lt h hlo)
  · have h1 : (0 : ℝ) < min x hi := lt_min h hhi
    unfold clamp
    exact ne_of_gt (lt_of_lt_of_le h1 (le_max_left _ _))

theorem pidUpdate_pure_p (st : PIDState) (err dt : ℝ) (hdt : dt ≠ 0)
    (hig : st.iGain = 0) (hie : st.iErr = 0) (hdg : st.dGain = 0)
    (him : st.iMin ≤ 0) (hiM : 0 ≤ st.iMax) :
    (PIDUpdate st err dt).2 =
      if st.cmdMin ≤ st.cmdMax then
        clamp (-(st.pGain * err)) st.cmdMin st.cmdMax
      else -(st.pGain * err) := by
  have hclamp0 : clamp 0 st.iMin st.iMax = 0 := by
    unfold clamp
    rw [min_eq_left hiM, max_eq_left him]
  simp only [PIDUpdate, if_neg hdt, hig, hie, hdg, zero_mul, mul_zero,
    add_zero, zero_add, if_pos (him.trans hiM), hclamp0, sub_zero]

theorem pid_update_nonzero (st : PIDState) (err dt : ℝ) (hdt : dt ≠ 0)
    (herr : 0.1 < |err|) (hpg : st.pGain ≠ 0) (hig : st.iGain = 0)
    (hie : st.iErr = 0) (hdg : st.dGain = 0) (him : st.iMin ≤ 0)
    (hiM : 0 ≤ st.iMax) (hcm : st.cmdMin < 0) (hcM : 0 < st.cmdMax) :
    (PIDUpdate st err dt).2 ≠ 0 := by
  have herr0 : err ≠ 0 := by
    intro h0
    rw [h0] at herr
    norm_num at herr
  have hne : -(st.pGain * err) ≠ 0 := by
    simpa using mul_ne_zero hpg herr0
  rw [pidUpdate_pure_p st err dt hdt hig hie hdg him hiM,
    if_pos (le_of_lt (lt_trans hcm hcM))]
  exact clamp_ne_zero hcm hcM hne

theorem preUpdate_pid_wrench (s : ThrusterState) (pid : PIDState)
    (inp : StepInput) (hp : inp.paused = false) (he : s.enabled = true)
    (hv : s.velocityControl = false) :
    (PreUpdate s pid inp).2.2.wrench = some (s.thrust,
      (if 0.1 < |inp.currentAngular - (ThrustToAngularVec s s.thrust).2| then
        PIDUpdate pid (inp.currentAngular - (ThrustToAngularVec s s.thrust).2)
          inp.dt
      else (pid, 0)).2) := by
  simp [PreUpdate, hp, he, hv]

theorem preUpdate_pid_state (s : ThrusterState) (pid : PIDState)
    (inp : StepInput) (hp : inp.paused = false) (he : s.enabled = true)
    (hv : s.velocityControl = false) :
    (PreUpdate s pid inp).2.1 =
      (if 0.1 < |inp.currentAngular - (ThrustToAngularVec s s.thrust).2| then
        PIDUpdate pid (inp.currentAngular - (ThrustToAngularVec s s.thrust).2)
          inp.dt
      else (pid, 0)).1 := by
  simp [PreUpdate, hp, he, hv]

theorem t2av_initial_zero :
    (ThrustToAngularVec initialState initialState.thrust).2 = 0 := by
  have hst : (ThrustToAngularVec initialState initialState.thrust).1 =
      initialState := by
    rw [t2av_fst, if_neg]
    rintro ⟨hA, hB⟩
    norm_num [initialState, dblEpsilon] at hB
  rw [t2av_snd, hst]
  show (if (0 : ℝ) < 0 * 1 then (1 : ℝ) else -1) *
      Real.sqrt |(0 : ℝ) / (1000 * 1 * (0.02 : ℝ) ^ 4)| = 0
  simp

/-- Claim C5: in PID torque control (velocity control off), an angular error
of magnitude at most 0.1 yields exactly zero torque and leaves the PID state
untouched; a larger error invokes the PID update, and that update returns a
nonzero torque whenever the proportional gain is nonzero (with the integral
and derivative gains at their configured defaults of zero, a fresh
integrator, and zero-straddling integrator and command bounds). -/
theorem thruster_pid_deadband (s : ThrusterState) (pid : PIDState)
    (inp : StepInput) (hp : inp.paused = false) (he : s.enabled = true)
    (hv : s.velocityControl = false) :
    (|inp.currentAngular - (ThrustToAngularVec s s.thrust).2| ≤ 0.1 →
      (PreUpdate s pid inp).2.2.wrench = some (s.thrust, 0)
      ∧ (PreUpdate s pid inp).2.1 = pid)
    ∧ (0.1 < |inp.currentAngular - (ThrustToAngularVec s s.thrust).2| →
      (PreUpdate s pid inp).2.2.wrench = some (s.thrust,
        (PIDUpdate pid
          (inp.currentAngular - (ThrustToAngularVec s s.thrust).2) inp.dt).2))
    ∧ (∀ err : ℝ, 0.1 < |err| → inp.dt ≠ 0 → pid.pGain ≠ 0 → pid.iGain = 0 →
        pid.dGain = 0 → pid.iErr = 0 → pid.iMin ≤ 0 → 0 ≤ pid.iMax →
        pid.cmdMin < 0 → 0 < pid.cmdMax →
        (PIDUpdate pid err inp.dt).2 ≠ 0) := by
  refine ⟨?_, ?_, ?_⟩
  · intro hle
    have hw := preUpdate_pid_wrench s pid inp hp he hv
    have hk := preUpdate_pid_state s pid inp hp he hv
    rw [if_neg (not_lt.mpr hle)] at hw hk
    exact ⟨hw, hk⟩
  · intro hgt
    have hw := preUpdate_pid_wrench s pid inp hp he hv
    rw [if_pos hgt] at hw
    exact hw
  · intro err h1 h2 h3 h4 h5 h6 h7 h8 h9 h10
    exact pid_update_nonzero pid err inp.dt h2 h1 h3 h4 h6 h5 h7 h8 h9 h10

/-- Claim C5 witness: from the default state (commanded thrust 0, derived
setpoint 0) with a measured angular velocity of 1, the error 1 exceeds the
dead-band, the applied torque is the PID update's output, and that output is
nonzero. -/
theorem thruster_pid_deadband_witness :
    (PreUpdate initialState wPid wStepErr).2.2.wrench =
      some (0, (PIDUpdate wPid 1 1).2)
    ∧ (PIDUpdate wPid 1 1).2 ≠ 0 := by
  have h := thruster_pid_deadband initialState wPid wStepErr rfl rfl rfl
  have herr : wStepErr.currentAngular -
      (ThrustToAngularVec initialState initialState.thrust).2 = 1 := by
    rw [t2av_initial_zero]
    norm_num [wStepErr]
  constructor
  · have h2 := h.2.1 (by rw [herr]; norm_num)
    rw [herr] at h2
    exact h2
  · have h3 := h.2.2 1 (by norm_num) (by norm_num [wStepErr])
      (by norm_num [wPid, PIDInit]) (by norm_num [wPid, PIDInit])
      (by norm_num [wPid, PIDInit]) (by norm_num [wPid, PIDInit])
      (by norm_num [wPid, PIDInit]) (by norm_num [wPid, PIDInit])
      (by norm_num [wPid, PIDInit]) (by norm_num [wPid, PIDInit])
    exact h3

theorem preUpdate_state_thrust (s : ThrusterState) (pid : PIDState)
    (inp : StepInput) (hp : inp.paused = false) (he : s.enabled = true) :
    (PreUpdate s pid inp).1.thrust = s.thrust := by
  simp only [PreUpdate, hp, he]
  simp only [Bool.false_eq_true, if_false]
  split
  · simp
  · split <;> simp

theorem preUpdate_state_propAngVel (s : ThrusterState) (pid : PIDState)
    (inp : StepInput) (hp : inp.paused = false) (he : s.enabled = true) :
    (PreUpdate s pid inp).1.propellerAngVel =
      (ThrustToAngularVec s s.thrust).2 := by
  simp only [PreUpdate, hp, he]
  simp only [Bool.false_eq_true, if_false]
  split
  · simp_all
  · split <;> simp

theorem preUpdate_state_coefficient (s : ThrusterState) (pid : PIDState)
    (inp : StepInput) (hp : inp.paused = false) (he : s.enabled = true) :
    (PreUpdate s pid inp).1.thrustCoefficient =
      (ThrustToAngularVec s s.thrust).1.thrustCoefficient := by
  simp only [PreUpdate, hp, he]
  simp only [Bool.false_eq_true, if_false]
  split
  · simp_all
  · split <;> simp

theorem preUpdate_vel_jointCmd (s : ThrusterState) (pid : PIDState)
    (inp : StepInput) (hp : inp.paused = false) (he : s.enabled = true)
    (hv : s.velocityControl = true) :
    (PreUpdate s pid inp).2.2.jointVelCmd =
      some ((ThrustToAngularVec s s.thrust).2) := by
  simp [PreUpdate, hp, he, hv]

/-- Claim C10: on every enabled, unpaused step the stored propeller angular
velocity is overwritten with the value re-derived from the stored thrust,
the stored thrust itself is unchanged, the coefficient-recomputation side
effect of that conversion is applied to the stored coefficient, and the
setpoint used downstream — the joint velocity command in velocity mode, the
PID target in torque mode — is exactly that re-derived value. -/
theorem thruster_step_rederives_setpoint (s : ThrusterState) (pid : PIDState)
    (inp : StepInput) (hp : inp.paused = false) (he : s.enabled = true) :
    (PreUpdate s pid inp).1.thrust = s.thrust
    ∧ (PreUpdate s pid inp).1.propellerAngVel =
        (ThrustToAngularVec s s.thrust).2
    ∧ (PreUpdate s pid inp).1.thrustCoefficient =
        (ThrustToAngularVec s s.thrust).1.thrustCoefficient
    ∧ (s.velocityControl = true →
        (PreUpdate s pid inp).2.2.jointVelCmd =
          some ((ThrustToAngularVec s s.thrust).2))
    ∧ (s.velocityControl = false →
        (PreUpdate s pid inp).2.2.wrench = some (s.thrust,
          (if 0.1 < |inp.currentAngular - (ThrustToAngularVec s s.thrust).2|
           then PIDUpdate pid
             (inp.currentAngular - (ThrustToAngularVec s s.thrust).2) inp.dt
           else (pid, 0)).2)) := by
  exact ⟨preUpdate_state_thrust s pid inp hp he,
    preUpdate_state_propAngVel s pid inp hp he,
    preUpdate_state_coefficient s pid inp hp he,
    fun hv => preUpdate_vel_jointCmd s pid inp hp he hv,
    fun hv => preUpdate_pid_wrench s pid inp hp he hv⟩

/-- Claim C10 witness: from the default state (thrust 0), after one enabled,
unpaused step the stored thrust is still 0 and the stored propeller angular
velocity is the re-derived value 0. -/
theorem thruster_step_rederives_setpoint_witness :
    (PreUpdate initialState wPid wStepNoBattery).1.thrust = 0
    ∧ (PreUpdate initialState wPid wStepNoBattery).1.propellerAngVel = 0 := by
  have h := thruster_step_rederives_setpoint initialState wPid
    wStepNoBattery rfl rfl
  refine ⟨h.1, ?_⟩
  rw [h.2.1]
  exact t2av_initial_zero

theorem preUpdate_modelEntity (s : ThrusterState) (pid : PIDState)
    (inp : StepInput) :
    (PreUpdate s pid inp).1.modelEntity = s.modelEntity := by
  unfold PreUpdate
  split
  · rfl
  · split
    · rfl
    · split <;> simp

theorem preUpdate_disabled (s : ThrusterState) (pid : PIDState)
    (inp : StepInput) (he : s.enabled = false) :
    PreUpdate s pid inp = (s, pid, StepOutput.empty) := by
  unfold PreUpdate
  split <;> simp_all

theorem preUpdate_enabled_outputs (s : ThrusterState) (pid : PIDState)
    (inp : StepInput) (hp : inp.paused = false) (he : s.enabled = true) :
    (PreUpdate s pid inp).2.2.wrench.isSome = true
    ∧ (PreUpdate s pid inp).2.2.published.isSome = true := by
  constructor
  · simp only [PreUpdate, hp, he]
    split
    · simp_all
    · split
      · simp_all
      · split <;> simp
  · simp only [PreUpdate, hp, he]
    split
    · simp_all
    · split
      · simp_all
      · split <;> simp

theorem step_enabled_flag (s : ThrusterState) (pid : PIDState)
    (inp : StepInput) :
    (Step s pid inp).1.enabled =
      HasSufficientBattery s.modelEntity inp.batteries := by
  unfold Step PostUpdate
  simp [preUpdate_modelEntity]

theorem step_modelEntity (s : ThrusterState) (pid : PIDState)
    (inp : StepInput) :
    (Step s pid inp).1.modelEntity = s.modelEntity := by
  unfold Step PostUpdate
  simp [preUpdate_modelEntity]

/-- Claim C7: battery gating is evaluated after each step and takes effect
only from the following step.  A step entered enabled completes (applies a
wrench and publishes) even when the charge reading is already depleted; the
step entered disabled applies no force/torque and publishes nothing (in
general, any disabled step produces the empty output and leaves the state
untouched); and once the charge is reported positive again the enabled flag
is restored at the end of that step, so the step after it runs normally. -/
theorem thruster_battery_gate_timing (s : ThrusterState) (pid : PIDState)
    (i1 i2 i3 : StepInput) (hen : s.enabled = true) (hp1 : i1.paused = false)
    (hp3 : i3.paused = false)
    (hb1 : HasSufficientBattery s.modelEntity i1.batteries = false)
    (hb2 : HasSufficientBattery s.modelEntity i2.batteries = true) :
    let r1 := Step s pid i1
    let r2 := Step r1.1 r1.2.1 i2
    let r3 := Step r2.1 r2.2.1 i3
    r1.2.2.wrench.isSome = true
    ∧ r1.2.2.published.isSome = true
    ∧ r1.1.enabled = false
    ∧ (∀ s2 : ThrusterState, ∀ pid2 : PIDState, ∀ j : StepInput,
        s2.enabled = false → (PreUpdate s2 pid2 j).2.2 = StepOutput.empty
          ∧ (PreUpdate s2 pid2 j).1 = s2)
    ∧ r2.2.2 = StepOutput.empty
    ∧ r2.1.enabled = true
    ∧ r3.2.2.wrench.isSome = true := by
  intro r1 r2 r3
  have hout := preUpdate_enabled_outputs s pid i1 hp1 hen
  have hC3 : r1.1.enabled = false := by
    show (Step s pid i1).1.enabled = false
    rw [step_enabled_flag]
    exact hb1
  have hC5 : r2.2.2 = StepOutput.empty := by
    show (PreUpdate r1.1 r1.2.1 i2).2.2 = _
    rw [preUpdate_disabled _ _ _ hC3]
  have hC6 : r2.1.enabled = true := by
    show (Step r1.1 r1.2.1 i2).1.enabled = true
    rw [step_enabled_flag]
    have hm : r1.1.modelEntity = s.modelEntity := step_modelEntity s pid i1
    rw [hm]
    exact hb2
  refine ⟨hout.1, hout.2, hC3, ?_, hC5, hC6, ?_⟩
  · intro s2 pid2 j h
    rw [preUpdate_disabled s2 pid2 j h]
    exact ⟨rfl, rfl⟩
  · exact (preUpdate_enabled_outputs r2.1 r2.2.1 i3 hp3 hC6).1

/-- Claim C7 witness: from the default (enabled) state, a step that sees a
depleted owned battery reading still produces output but disables the
thruster; the next step produces nothing while its positive reading
re-enables the thruster at its end. -/
theorem thruster_battery_gate_timing_witness :
    let r1 := Step initialState wPid wStepBatteryLow
    let r2 := Step r1.1 r1.2.1 wStepBatteryOk
    r1.2.2.wrench.isSome = true
    ∧ r1.1.enabled = false
    ∧ r2.2.2 = StepOutput.empty
    ∧ r2.1.enabled = true := by
  intro r1 r2
  have hb1 : HasSufficientBattery initialState.modelEntity
      wStepBatteryLow.batteries = false := by
    norm_num [HasSufficientBattery, wStepBatteryLow, initialState]
  have hb2 : HasSufficientBattery initialState.modelEntity
      wStepBatteryOk.batteries = true := by
    norm_num [HasSufficientBattery, wStepBatteryOk, initialState]
  have h := thruster_battery_gate_timing initialState wPid wStepBatteryLow
    wStepBatteryOk wStepNoBattery rfl rfl rfl hb1 hb2
  exact ⟨h.1, h.2.2.1, h.2.2.2.2.1, h.2.2.2.2.2.1⟩

/-- Claim C9: the `i_gain` and `d_gain` elements are read under an inverted
presence check (`if (!HasElement(...))`), so whenever `Configure` builds a
PID controller its integral and derivative gains are the default `0`,
regardless of any configured `i_gain`/`d_gain` values (when the element is
present the read path is skipped; when it is absent the read returns the
default-constructed `0`). -/
theorem thruster_gain_check_inverted :
    ∀ c : SdfConfig, ∀ ps : PIDState,
      (Configure c).2 = some ps → ps.iGain = 0 ∧ ps.dGain = 0 := by
  intro c ps h
  unfold Configure at h
  split at h
  · simp at h
  · repeat' split at h
    all_goals try rw [apply_ite Prod.snd] at h
    all_goals try split at h
    all_goals simp at h
    all_goals subst h
    all_goals refine ⟨?_, ?_⟩
    all_goals simp_all [PIDInit, sdfGetDouble]

theorem configureState_eval :
    ConfigureState wCfg = { initialState with cmdMax := 1000, cmdMin := -1000 } := by
  unfold ConfigureState wCfg
  norm_num [initialState]

/-- Claim C9 witness: a configuration that supplies `i_gain = 5` and
`d_gain = 7` still yields a PID controller whose integral and derivative
gains are `0`. -/
theorem thruster_gain_check_inverted_witness :
    ∃ ps : PIDState, (Configure wCfg).2 = some ps
      ∧ ps.iGain = 0 ∧ ps.dGain = 0 := by
  have hsome : ∃ ps : PIDState, (Configure wCfg).2 = some ps := by
    unfold Configure
    rw [configureState_eval]
    norm_num [wCfg, initialState]
  obtain ⟨ps, hps⟩ := hsome
  exact ⟨ps, hps, (thruster_gain_check_inverted wCfg ps hps).1,
    (thruster_gain_check_inverted wCfg ps hps).2⟩
